import Mathlib

/-!
Verification of the tmux message-delivery test harness
(`tests/performance/test_send_enter.py`, `stress_test_send_enter.py`,
`test_large_message_reliability.py`).

Text is modelled as `List Char`; wall-clock time counts only the explicit
`time.sleep` calls of the source, measured in tenths of a second, with all
other operations instantaneous.  A `tmux capture-pane` invocation is modelled
by its observable result (`CapRun`); a sequence of captures is a function
`Nat → CapRun` giving the pane content seen by the n-th capture.
-/

namespace TmuxHarness

/-- Text: Python strings as lists of characters. -/
abbrev Txt := List Char

/-- Python `s.startswith(p)`: `p` is an initial segment of `l`. -/
def startsWith : Txt → Txt → Bool
  | [], _ => true
  | _ :: _, [] => false
  | p :: ps, c :: cs => p == c && startsWith ps cs

/-- Python `p in l` for strings: `p` occurs as a contiguous substring of `l`. -/
def isSub (p : Txt) : Txt → Bool
  | [] => startsWith p []
  | c :: cs => startsWith p (c :: cs) || isSub p cs

/-- Python `s.split(sep)` for a one-character separator: splits at every
occurrence, keeping empty pieces, never returning an empty list. -/
def splitOnChar (sep : Char) : Txt → List Txt
  | [] => [[]]
  | c :: cs =>
    if c = sep then [] :: splitOnChar sep cs
    else
      match splitOnChar sep cs with
      | [] => [[c]]
      | l :: ls => (c :: l) :: ls

/-! ## Session driver and verification poller (`test_send_enter.py`) -/

/-- One run of `tmux capture-pane` as observed by `capture_tmux_output`:
either the subprocess completed with a return code and stdout, or it raised
an exception with the given message. -/
inductive CapRun
  | ok (returncode : Int) (stdout : Txt)
  | exn (msg : Txt)

/-- `TmuxClaudeMessageTester.capture_tmux_output`: returns stdout when the
return code is 0, the empty string otherwise, and converts any exception into
the string `Error capturing: <e>`.  It never raises. -/
def capture_tmux_output : CapRun → Txt
  | .ok rc out => if rc = 0 then out else []
  | .exn e => ("Error capturing: ").toList ++ e

/-- The delivery strategies registered in `test_send_enter.main`. -/
inductive Strategy
  | single_enter
  | double_enter
  | triple_enter
  | enter_delay_enter
  | c_return
  | literal_enter
  | separate_commands
  | force_enter
  | paste_mode
deriving DecidableEq, Repr

/-- Internal `time.sleep` total of each strategy implementation, in tenths of
a second (`enter_delay_enter` sleeps 0.5 s, `separate_commands` 0.1 s; the
others do not sleep). -/
def strategyDelay : Strategy → Nat
  | .enter_delay_enter => 5
  | .separate_commands => 1
  | _ => 0

/-- `max_wait = 10` seconds, in tenths. -/
def max_wait : Nat := 100

/-- `check_interval = 0.5` seconds, in tenths. -/
def check_interval : Nat := 5

/-- The loop bound `int(max_wait / check_interval)` = 20. -/
def num_checks : Nat := max_wait / check_interval

/-- The break condition of the polling loop:
`test_message in current_output and current_output != baseline_output`. -/
def deliveredCond (msg baseline cap : Txt) : Bool :=
  isSub msg cap && cap != baseline

/-- Result of the polling loop in `send_test_message`: the final value of the
`success` flag and the number of sleep-and-capture iterations performed. -/
structure PollResult where
  success : Bool
  polls : Nat
deriving DecidableEq, Repr

/-- The `for _ in range(int(max_wait / check_interval))` loop of
`send_test_message`: sleep, capture, and on the break condition set `success`
by scanning the lines of the capture for one containing the message, then
stop.  `caps i` is the content seen by the i-th poll capture, `fuel` the
remaining iterations, `i` the index of the next capture. -/
def pollAux (msg baseline : Txt) (caps : Nat → Txt) : Nat → Nat → PollResult
  | 0, i => ⟨false, i⟩
  | fuel + 1, i =>
    let current := caps i
    if deliveredCond msg baseline current then
      ⟨(splitOnChar '\n' current).any (fun line => isSub msg line), i + 1⟩
    else
      pollAux msg baseline caps fuel (i + 1)

/-- The fields of the `TestResult` record that the claims are about. -/
structure TestResult where
  success : Bool
  response_time : Nat
  error : Txt
deriving DecidableEq, Repr

/-- `TmuxClaudeMessageTester.send_test_message`, with time counting only
sleeps (tenths of a second).  `runs n` is the observed n-th invocation of
`capture-pane`: run 0 is the baseline capture, run `i + 1` the i-th poll
capture.  `stratExn` is the exception raised by the strategy, if any, and `d`
the sleep time the strategy consumed; when the strategy raises, the whole
`try` block is abandoned and a result with the error attached is returned
without any polling. -/
def send_test_message (stratExn : Option Txt) (d : Nat) (msg : Txt)
    (runs : Nat → CapRun) : TestResult :=
  let baseline := capture_tmux_output (runs 0)
  match stratExn with
  | some e => { success := false, response_time := d, error := e }
  | none =>
    let p := pollAux msg baseline
      (fun i => capture_tmux_output (runs (i + 1))) num_checks 0
    { success := p.success, response_time := d + check_interval * p.polls
      error := [] }

/-! ## Stress tester (`stress_test_send_enter.py`) -/

/-- The strategies dispatched by
`TmuxClaudeStressTester.send_message_with_strategy`. -/
inductive StressStrategy
  | single_enter
  | double_enter
  | enter_delay_enter
  | separate_commands
deriving DecidableEq, Repr

/-- Internal `time.sleep` total of each strategy branch of
`send_message_with_strategy`, in tenths of a second. -/
def stressStrategyDelay : StressStrategy → Nat
  | .enter_delay_enter => 5
  | .separate_commands => 1
  | _ => 0

/-- Sleep time of one `send_message_with_strategy` call: the strategy branch
sleeps, then the call sleeps 1 s before the verifying capture. -/
def send_message_duration (s : StressStrategy) : Nat := stressStrategyDelay s + 10

/-- `rapid_fire_test` wall-clock total (tenths): each of the `n` iterations is
one `send_message_with_strategy` call followed by `time.sleep(0.1)`. -/
def rapid_fire_total_time (n : Nat) (s : StressStrategy) : Nat :=
  n * (send_message_duration s + 1)

/-- `success_rate = (successful / num_messages) * 100` in `rapid_fire_test`;
the division is unguarded, so `num_messages = 0` raises `ZeroDivisionError`,
modelled as `none`. -/
def rapid_fire_success_rate (successful num_messages : Nat) : Option ℚ :=
  if num_messages = 0 then none
  else some ((successful : ℚ) / (num_messages : ℚ) * 100)

/-- `avg_response_time = total_time / num_messages` in `rapid_fire_test`
(batch wall-clock divided by the message count); unguarded division. -/
def rapid_fire_avg_response_time (n : Nat) (s : StressStrategy) : Option ℚ :=
  if n = 0 then none
  else some ((rapid_fire_total_time n s : ℚ) / (n : ℚ))

/-- Python `statistics.mean`, which raises `StatisticsError` on empty input. -/
def statistics_mean (xs : List ℚ) : Option ℚ :=
  if xs = [] then none else some (xs.sum / (xs.length : ℚ))

/-- `overall_success_rate` in `generate_stress_report`: this one is guarded by
`if total_messages > 0 else 0`. -/
def overall_success_rate (total_successful total_messages : Nat) : ℚ :=
  if 0 < total_messages then (total_successful : ℚ) / (total_messages : ℚ) * 100
  else 0

/-- The `StressTestResult` dataclass. -/
structure StressTestResult where
  test_name : Txt
  total_messages : Nat
  successful_messages : Nat
  failed_messages : Nat
  success_rate : ℚ
  avg_response_time : ℚ
  errors : List Txt
deriving DecidableEq, Repr

/-- Python `min(xs, key=k)` for a rational-valued key: the first element with
the least key, `None` (here `none`) is never produced for nonempty input; on
an empty list Python raises, modelled as `none`. -/
def pyMinBy {α : Type} (key : α → ℚ) : List α → Option α
  | [] => none
  | x :: xs => some (xs.foldl (fun acc y => if key y < key acc then y else acc) x)

/-- Python `max(xs, key=k)`: the first element with the greatest key. -/
def pyMaxBy {α : Type} (key : α → ℚ) : List α → Option α
  | [] => none
  | x :: xs => some (xs.foldl (fun acc y => if key acc < key y then y else acc) x)

/-- `worst_test = min(self.results, key=lambda x: x.success_rate) if
self.results else None` in `generate_stress_report`. -/
def worst_test (results : List StressTestResult) : Option StressTestResult :=
  pyMinBy (fun r => r.success_rate) results

/-- `best_test = max(self.results, key=lambda x: x.success_rate) if
self.results else None` in `generate_stress_report`. -/
def best_test (results : List StressTestResult) : Option StressTestResult :=
  pyMaxBy (fun r => r.success_rate) results

/-- Per-message outcome inside the stress-test loops: the strategy call
returned True, returned False, or raised. -/
inductive MsgOutcome
  | received
  | notReceived
  | raised (e : Txt)
deriving DecidableEq, Repr

/-- Whether an outcome appends to the `errors` list. -/
def MsgOutcome.isFailure : MsgOutcome → Bool
  | .received => false
  | _ => true

/-- Decimal rendering of a message index, as Python f-strings interpolate it. -/
def natToTxt (n : Nat) : Txt := (toString n).toList

/-- The error strings accumulated by a stress-test loop: one entry per failed
or raising message, in message order, formatted
`<tag><i> not received` or `<tag><i> error: <e>`. -/
def collectErrors (tag : Txt) : Nat → List MsgOutcome → List Txt
  | _, [] => []
  | i, .received :: rest => collectErrors tag (i + 1) rest
  | i, .notReceived :: rest =>
      (tag ++ natToTxt i ++ (" not received").toList) :: collectErrors tag (i + 1) rest
  | i, .raised e :: rest =>
      (tag ++ natToTxt i ++ (" error: ").toList ++ e) :: collectErrors tag (i + 1) rest

/-- `rapid_fire_test` stores `errors=errors[:5]` — only the first 5. -/
def rapid_fire_errors (outs : List MsgOutcome) : List Txt :=
  (collectErrors ("Message ").toList 0 outs).take 5

/-- `long_message_test` stores `errors=errors` — the whole list, uncapped. -/
def long_message_errors (outs : List MsgOutcome) : List Txt :=
  collectErrors ("Long message ").toList 0 outs

/-- `busy_claude_test` stores `errors=errors` — the whole list, uncapped. -/
def busy_claude_errors (outs : List MsgOutcome) : List Txt :=
  collectErrors ("Busy message ").toList 0 outs

/-! ## Session discovery and exit behavior (`main` of both harnesses) -/

/-- Python `s.lower()` character-wise. -/
def lowerTxt (l : Txt) : Txt := l.map Char.toLower

/-- `claude_sessions = [line for line in result.stdout.split(chr(10)) if
"claude" in line.lower()]`. -/
def claude_sessions (stdout : Txt) : List Txt :=
  (splitOnChar '\n' stdout).filter (fun line => isSub ("claude").toList (lowerTxt line))

/-- `session_name = claude_sessions[0].split(":")[0]`. -/
def session_name_of (line : Txt) : Txt := (splitOnChar ':' line).headD []

/-- The two ways `main` can return in both harnesses: early, after printing
that no sessions were found, or normally after the run. -/
inductive MainOutcome
  | no_sessions
  | completed (session_name : Txt)
deriving DecidableEq, Repr

/-- Control flow of `main` as a function of the `tmux list-sessions` stdout. -/
def main_outcome (stdout : Txt) : MainOutcome :=
  match claude_sessions stdout with
  | [] => .no_sessions
  | s :: _ => .completed (session_name_of s)

/-- The process exit code: `main` ends in a plain `return` on the no-session
path and falls off the end otherwise, so the interpreter exits 0 on both. -/
def main_exit_code (stdout : Txt) : Nat :=
  match main_outcome stdout with
  | .no_sessions => 0
  | .completed _ => 0

/-! ## Large-message strategies (`test_large_message_reliability.py`) -/

/-- One call made by a large-message strategy, as issued to tmux. -/
inductive DriverCall
  | sendKeys (text : Txt)
  | sendEnter
  | loadBuffer (text : Txt)
  | pasteBuffer
  | sleepFor (tenths : Nat)
deriving DecidableEq, Repr

/-- `chunks = [message[i:i+chunk_size] for i in range(0, len(message),
chunk_size)]`.  Python raises `ValueError` on step 0; the `[]` returned here
for `size = 0` is a placeholder never used by the claims, which all assume a
positive chunk size. -/
def chunks (size : Nat) (msg : Txt) : List Txt :=
  if h : msg = [] then []
  else if hs : size = 0 then []
  else msg.take size :: chunks size (msg.drop size)
termination_by msg.length
decreasing_by
  simp only [List.length_drop]
  have : 0 < msg.length := List.length_pos.mpr h
  omega

/-- The tmux calls issued by `strategy_chunked_sending`: each chunk by
`send-keys` followed by `time.sleep(0.2)`, then a single final Enter. -/
def chunkedTrace (size : Nat) (msg : Txt) : List DriverCall :=
  (List.flatten ((chunks size msg).map
    (fun c => [DriverCall.sendKeys c, DriverCall.sleepFor 2]))) ++
  [DriverCall.sendEnter]

/-- Python `s.strip()`: drop leading and trailing whitespace. -/
def isPySpace (c : Char) : Bool :=
  c = ' ' || c = '\t' || c = '\n' || c = '\r' ||
  c = Char.ofNat 11 || c = Char.ofNat 12

def pyStrip (l : Txt) : Txt :=
  ((l.dropWhile isPySpace).reverse.dropWhile isPySpace).reverse

/-- The verification flag each large-message strategy computes from the final
pane capture: `success = len(result.stdout.strip()) > 50`. -/
def verificationFlag (pane : Txt) : Bool := 50 < (pyStrip pane).length

/-- What a large-message strategy routine produces: either its `try` block
completed — it computed the verification flag and then executed
`return True, duration` — or some call raised and it executed
`return False, duration`. -/
inductive LargeOutcome
  | completed (computedFlag : Bool) (duration : Nat)
  | raised (e : Txt) (duration : Nat)
deriving DecidableEq, Repr

/-- The first component of the returned pair. -/
def LargeOutcome.returnedSuccess : LargeOutcome → Bool
  | .completed _ _ => true
  | .raised _ _ => false

/-- The dead local `success` flag, present only on the completed path. -/
def LargeOutcome.computedVerification : LargeOutcome → Option Bool
  | .completed f _ => some f
  | .raised _ _ => none

/-- `strategy_single_send_keys`: send message plus Enter, sleep 3 s, capture,
compute the flag, return `(True, duration)`; on exception `(False, _)`.
`exn` is the first exception raised by any of its calls, `pane` the final
capture, `dRaise` the sleep time consumed before a raise. -/
def strategy_single_send_keys (exn : Option Txt) (dRaise : Nat) (pane : Txt) :
    LargeOutcome :=
  match exn with
  | some e => .raised e dRaise
  | none => .completed (verificationFlag pane) 30

/-- `strategy_chunked_sending`: send each chunk with a 0.2 s pause, one final
Enter, sleep 2 s, capture, compute the flag, return `(True, duration)`. -/
def strategy_chunked_sending (exn : Option Txt) (dRaise : Nat) (msg : Txt)
    (size : Nat) (pane : Txt) : LargeOutcome :=
  match exn with
  | some e => .raised e dRaise
  | none => .completed (verificationFlag pane) (2 * (chunks size msg).length + 20)

/-- `strategy_paste_buffer`: load-buffer, paste-buffer, Enter, sleep 2 s,
capture, compute the flag, return `(True, duration)`. -/
def strategy_paste_buffer (exn : Option Txt) (dRaise : Nat) (pane : Txt) :
    LargeOutcome :=
  match exn with
  | some e => .raised e dRaise
  | none => .completed (verificationFlag pane) 20

/-- `strategy_heredoc_approach`: send the heredoc-wrapped command plus Enter,
sleep 3 s, capture, compute the flag, return `(True, duration)`. -/
def strategy_heredoc_approach (exn : Option Txt) (dRaise : Nat) (pane : Txt) :
    LargeOutcome :=
  match exn with
  | some e => .raised e dRaise
  | none => .completed (verificationFlag pane) 30

/-- A capture sequence whose second capture (the first poll) contains the
payload and differs from the baseline. -/
def c1Runs : Nat → CapRun :=
  fun i => if i = 1 then .ok 0 ("x OK y").toList else .ok 0 []

/-! ## Claim C3 -/

/-- A session driver whose every `capture-pane` invocation raises. -/
def c3Runs : Nat → CapRun := fun _ => .exn ("boom").toList

/-! ## Claim C7 -/

/-- A capture sequence that first matches on the last poll of the budget. -/
def c7Runs : Nat → CapRun :=
  fun i => if i = 20 then .ok 0 ("a MSG b").toList else .ok 0 []

/-- A capture sequence that never matches. -/
def c7wRuns : Nat → CapRun := fun _ => .ok 0 []

/-- Two stress-test reports with the same success rate, where the
first-listed has the higher average latency. -/
def tieHigherLatency : StressTestResult :=
  { test_name := ("rapid_fire_single_enter").toList
    total_messages := 10, successful_messages := 5, failed_messages := 5
    success_rate := 50, avg_response_time := 9, errors := [] }

def tieLowerLatency : StressTestResult :=
  { test_name := ("rapid_fire_double_enter").toList
    total_messages := 10, successful_messages := 5, failed_messages := 5
    success_rate := 50, avg_response_time := 1, errors := [] }

theorem splitOnChar_ne_nil (sep : Char) (l : Txt) : splitOnChar sep l ≠ [] := by
  cases l with
  | nil => simp [splitOnChar]
  | cons c cs =>
    simp only [splitOnChar]
    split
    · simp
    · split <;> simp

theorem splitOnChar_cons_self (sep : Char) (cs : Txt) :
    splitOnChar sep (sep :: cs) = [] :: splitOnChar sep cs := by
  simp [splitOnChar]

theorem splitOnChar_cons_ne (sep c : Char) (cs m : Txt) (ls : List Txt)
    (hc : ¬ (c = sep)) (hm : splitOnChar sep cs = m :: ls) :
    splitOnChar sep (c :: cs) = (c :: m) :: ls := by
  simp only [splitOnChar, if_neg hc, hm]

theorem startsWith_nil_left (l : Txt) : startsWith [] l = true := by
  cases l <;> rfl

theorem isSub_nil_left (l : Txt) : isSub [] l = true := by
  cases l with
  | nil => rfl
  | cons c cs => simp [isSub, startsWith_nil_left]

/-- A prefix of the whole text is a prefix of the first line, provided the
pattern contains no separator. -/
theorem startsWith_headD_splitOnChar (sep : Char) :
    ∀ (l p : Txt), sep ∉ p → startsWith p l = true →
      startsWith p ((splitOnChar sep l).headD []) = true := by
  intro l
  induction l with
  | nil =>
    intro p _ hsw
    cases p with
    | nil => simp [splitOnChar, startsWith]
    | cons a ps => simp [startsWith] at hsw
  | cons c cs ih =>
    intro p hnotin hsw
    cases p with
    | nil => simp [startsWith_nil_left]
    | cons a ps =>
      simp only [startsWith, Bool.and_eq_true, beq_iff_eq] at hsw
      obtain ⟨rfl, hps⟩ := hsw
      have hne : ¬ (a = sep) := by
        intro h; exact hnotin (h ▸ List.mem_cons_self a ps)
      obtain ⟨m, ls, hm⟩ : ∃ m ls, splitOnChar sep cs = m :: ls := by
        cases h : splitOnChar sep cs with
        | nil => exact absurd h (splitOnChar_ne_nil sep cs)
        | cons m ls => exact ⟨m, ls, rfl⟩
      rw [splitOnChar_cons_ne sep a cs m ls hne hm]
      simp only [List.headD_cons, startsWith, beq_self_eq_true, Bool.true_and]
      have hps' : startsWith ps ((splitOnChar sep cs).headD []) = true :=
        ih ps (fun hmem => hnotin (List.mem_cons_of_mem a hmem)) hps
      rw [hm] at hps'
      simpa using hps'

theorem startsWith_isSub (p l : Txt) (h : startsWith p l = true) : isSub p l = true := by
  cases l with
  | nil => simpa [isSub] using h
  | cons c cs => simp [isSub, h]

/-- If a separator-free pattern occurs in the text, it occurs inside one of
the lines produced by splitting on that separator. -/
theorem isSub_line_of_isSub (sep : Char) :
    ∀ (l p : Txt), sep ∉ p → isSub p l = true →
      (splitOnChar sep l).any (fun q => isSub p q) = true := by
  intro l
  induction l with
  | nil =>
    intro p _ hsub
    simpa [splitOnChar, List.any] using hsub
  | cons c cs ih =>
    intro p hnotin hsub
    simp only [isSub, Bool.or_eq_true] at hsub
    by_cases hc : c = sep
    · subst hc
      rw [splitOnChar_cons_self]
      simp only [List.any_cons, Bool.or_eq_true]
      rcases hsub with hsw | hrec
      · cases p with
        | nil => left; simp [isSub_nil_left]
        | cons a ps =>
          simp only [startsWith, Bool.and_eq_true, beq_iff_eq] at hsw
          exact absurd (hsw.1 ▸ List.mem_cons_self a ps) hnotin
      · right; exact ih p hnotin hrec
    · obtain ⟨m, ls, hm⟩ : ∃ m ls, splitOnChar sep cs = m :: ls := by
        cases h : splitOnChar sep cs with
        | nil => exact absurd h (splitOnChar_ne_nil sep cs)
        | cons m ls => exact ⟨m, ls, rfl⟩
      rw [splitOnChar_cons_ne sep c cs m ls hc hm]
      simp only [List.any_cons, Bool.or_eq_true]
      rcases hsub with hsw | hrec
      · left
        have := startsWith_headD_splitOnChar sep (c :: cs) p hnotin hsw
        simp only [splitOnChar, if_neg hc, hm, List.headD_cons] at this
        exact startsWith_isSub _ _ this
      · have := ih p hnotin hrec
        rw [hm] at this
        simp only [List.any_cons, Bool.or_eq_true] at this
        rcases this with hmm | hls
        · left
          simp [isSub, hmm]
        · right; exact hls

/-! ### Characterization of the polling loop -/

theorem pollAux_polls_le (msg baseline : Txt) (caps : Nat → Txt) :
    ∀ (fuel i : Nat), (pollAux msg baseline caps fuel i).polls ≤ i + fuel := by
  intro fuel
  induction fuel with
  | zero => intro i; simp [pollAux]
  | succ n ih =>
    intro i
    rw [pollAux]
    split
    · simp
    · have := ih (i + 1)
      omega

theorem pollAux_no_match (msg baseline : Txt) (caps : Nat → Txt) :
    ∀ (fuel i : Nat),
      (∀ j, i ≤ j → j < i + fuel → deliveredCond msg baseline (caps j) = false) →
      pollAux msg baseline caps fuel i = ⟨false, i + fuel⟩ := by
  intro fuel
  induction fuel with
  | zero => intro i _; simp [pollAux]
  | succ n ih =>
    intro i hall
    rw [pollAux]
    have h0 : deliveredCond msg baseline (caps i) = false :=
      hall i (Nat.le_refl i) (by omega)
    simp only [h0]
    simp only [Bool.false_eq_true, if_false]
    have := ih (i + 1) (fun j hj1 hj2 => hall j (by omega) (by omega))
    rw [this]
    congr 1
    omega

theorem pollAux_success_iff (msg baseline : Txt) (caps : Nat → Txt)
    (hnl : '\n' ∉ msg) :
    ∀ (fuel i : Nat),
      ((pollAux msg baseline caps fuel i).success = true ↔
        ∃ j, i ≤ j ∧ j < i + fuel ∧ deliveredCond msg baseline (caps j) = true) := by
  intro fuel
  induction fuel with
  | zero =>
    intro i
    simp only [pollAux]
    constructor
    · intro h; exact absurd h (by simp)
    · rintro ⟨j, h1, h2, _⟩; omega
  | succ n ih =>
    intro i
    rw [pollAux]
    by_cases hc : deliveredCond msg baseline (caps i) = true
    · simp only [hc, if_true]
      constructor
      · intro _; exact ⟨i, Nat.le_refl i, by omega, hc⟩
      · intro _
        have hsub : isSub msg (caps i) = true := by
          have := hc
          simp only [deliveredCond, Bool.and_eq_true] at this
          exact this.1
        exact isSub_line_of_isSub '\n' (caps i) msg hnl hsub
    · simp only [Bool.not_eq_true] at hc
      simp only [hc, Bool.false_eq_true, if_false]
      rw [ih (i + 1)]
      constructor
      · rintro ⟨j, h1, h2, h3⟩; exact ⟨j, by omega, by omega, h3⟩
      · rintro ⟨j, h1, h2, h3⟩
        refine ⟨j, ?_, by omega, h3⟩
        rcases Nat.eq_or_lt_of_le h1 with rfl | h
        · rw [hc] at h3; exact absurd h3 (by simp)
        · omega

theorem send_test_message_none_eq (d : Nat) (msg : Txt) (runs : Nat → CapRun) :
    send_test_message none d msg runs =
      { success := (pollAux msg (capture_tmux_output (runs 0))
          (fun i => capture_tmux_output (runs (i + 1))) num_checks 0).success
        response_time := d + check_interval * (pollAux msg (capture_tmux_output (runs 0))
          (fun i => capture_tmux_output (runs (i + 1))) num_checks 0).polls
        error := [] } := rfl

theorem send_test_message_some_eq (e : Txt) (d : Nat) (msg : Txt)
    (runs : Nat → CapRun) :
    send_test_message (some e) d msg runs =
      { success := false, response_time := d, error := e } := rfl

/-! ## Claim C1 -/

/-- C1: for every verification cycle (of a payload without a line break, as
every payload the harness builds is), the poller reports success exactly when
some poll capture within the `int(max_wait / check_interval)` poll budget
contains the payload as a substring and differs from the baseline snapshot;
and when no capture in the budget satisfies both conditions, the cycle runs
the full budget and resolves unsuccessfully (timed out).  In particular a
delivered outcome is reported only when both the substring-containment and
the differs-from-baseline conditions hold on a captured snapshot. -/
theorem C1_poller_delivery (msg : Txt) (runs : Nat → CapRun) (d : Nat)
    (hnl : '\n' ∉ msg) :
    ((send_test_message none d msg runs).success = true ↔
      ∃ j, j < num_checks ∧
        deliveredCond msg (capture_tmux_output (runs 0))
          (capture_tmux_output (runs (j + 1))) = true)
    ∧ ((∀ j, j < num_checks →
          deliveredCond msg (capture_tmux_output (runs 0))
            (capture_tmux_output (runs (j + 1))) = false) →
        send_test_message none d msg runs =
          { success := false
            response_time := d + check_interval * num_checks
            error := [] }) := by
  constructor
  · rw [send_test_message_none_eq]
    have h := pollAux_success_iff msg (capture_tmux_output (runs 0))
      (fun i => capture_tmux_output (runs (i + 1))) hnl num_checks 0
    simpa using h
  · intro hall
    rw [send_test_message_none_eq]
    have h := pollAux_no_match msg (capture_tmux_output (runs 0))
      (fun i => capture_tmux_output (runs (i + 1))) num_checks 0
      (fun j _ hj => hall j (by simpa using hj))
    rw [h]
    simp

theorem C1_poller_delivery_witness :
    (((send_test_message none 0 ("OK").toList c1Runs).success = true ↔
      ∃ j, j < num_checks ∧
        deliveredCond ("OK").toList (capture_tmux_output (c1Runs 0))
          (capture_tmux_output (c1Runs (j + 1))) = true)
    ∧ ((∀ j, j < num_checks →
          deliveredCond ("OK").toList (capture_tmux_output (c1Runs 0))
            (capture_tmux_output (c1Runs (j + 1))) = false) →
        send_test_message none 0 ("OK").toList c1Runs =
          { success := false
            response_time := 0 + check_interval * num_checks
            error := [] })) :=
  C1_poller_delivery ("OK").toList c1Runs 0 (by decide)

/-- C3 counterexample: when every pane capture fails during polling, the
attempt does NOT resolve to an errored outcome and polling does NOT stop:
`capture_tmux_output` swallows the exception into a string, the loop polls
through the entire budget (response time = `max_wait`, i.e. all
`num_checks` sleeps of `check_interval`), and the attempt resolves with
`success = false` and an empty `error` field — a timeout-style failure, which
the claim says cannot happen on a driver failure. -/
theorem C3_capture_failure_counterexample :
    send_test_message none 0 ("MSG").toList c3Runs =
      { success := false, response_time := max_wait, error := [] } := by decide

/-- C3 amended: a pane-capture failure during polling never raises —
`capture_tmux_output` converts exceptions to an `Error capturing:` string —
so the attempt resolves with an empty error detail and, when nothing matches,
polling continues through the whole budget; only an exception raised by the
strategy itself resolves the attempt immediately (no polling) with the
underlying error attached. -/
theorem C3_capture_failure_swallowed (msg : Txt) (d : Nat)
    (runs : Nat → CapRun) (e : Txt) :
    (send_test_message none d msg runs).error = []
    ∧ send_test_message (some e) d msg runs =
        { success := false, response_time := d, error := e }
    ∧ ((∀ j, j < num_checks →
          deliveredCond msg (capture_tmux_output (runs 0))
            (capture_tmux_output (runs (j + 1))) = false) →
        (send_test_message none d msg runs).response_time =
          d + check_interval * num_checks) := by
  refine ⟨by rw [send_test_message_none_eq], send_test_message_some_eq e d msg runs, ?_⟩
  intro hall
  rw [send_test_message_none_eq]
  have h := pollAux_no_match msg (capture_tmux_output (runs 0))
    (fun i => capture_tmux_output (runs (i + 1))) num_checks 0
    (fun j _ hj => hall j (by simpa using hj))
  rw [h]
  simp

theorem C3_capture_failure_swallowed_witness :
    ((send_test_message none 0 ("MSG").toList c3Runs).error = []
    ∧ send_test_message (some ("boom").toList) 0 ("MSG").toList c3Runs =
        { success := false, response_time := 0, error := ("boom").toList }
    ∧ ((∀ j, j < num_checks →
          deliveredCond ("MSG").toList (capture_tmux_output (c3Runs 0))
            (capture_tmux_output (c3Runs (j + 1))) = false) →
        (send_test_message none 0 ("MSG").toList c3Runs).response_time =
          0 + check_interval * num_checks)) :=
  C3_capture_failure_swallowed ("MSG").toList 0 c3Runs ("boom").toList

/-- C7 counterexample: an attempt using the `enter_delay_enter` strategy
(whose implementation sleeps 0.5 s between its two sends) that is delivered
on the last poll of the budget has elapsed time `strategyDelay + max_wait`
= 10.5 s, strictly greater than `max_wait` = 10 s: the claim `outcome =
Delivered → elapsed ≤ maxWait` fails, because the measured `response_time`
starts before the strategy runs and includes its internal delay. -/
theorem C7_elapsed_counterexample :
    (send_test_message none (strategyDelay Strategy.enter_delay_enter)
      ("MSG").toList c7Runs).success = true
    ∧ max_wait < (send_test_message none (strategyDelay Strategy.enter_delay_enter)
        ("MSG").toList c7Runs).response_time := by decide

/-- Every strategy sleeps at most one poll interval internally. -/
theorem strategyDelay_le_interval (s : Strategy) :
    strategyDelay s ≤ check_interval := by
  cases s <;> decide

/-- C7 amended: elapsed is non-negative; a delivered outcome has
`elapsed ≤ maxWait + strategyDelay` (the strategy-internal sleep, itself at
most one poll interval, is the only excess over `maxWait`); an undelivered
outcome (timed out) has elapsed between `maxWait` and `maxWait` plus one
poll interval. -/
theorem C7_elapsed_bounds (s : Strategy) (msg : Txt) (runs : Nat → CapRun)
    (hnl : '\n' ∉ msg) :
    0 ≤ (send_test_message none (strategyDelay s) msg runs).response_time
    ∧ ((send_test_message none (strategyDelay s) msg runs).success = true →
        (send_test_message none (strategyDelay s) msg runs).response_time ≤
          max_wait + strategyDelay s)
    ∧ ((send_test_message none (strategyDelay s) msg runs).success = false →
        max_wait ≤ (send_test_message none (strategyDelay s) msg runs).response_time
        ∧ (send_test_message none (strategyDelay s) msg runs).response_time ≤
            max_wait + check_interval) := by
  rw [send_test_message_none_eq]
  refine ⟨Nat.zero_le _, ?_, ?_⟩
  · intro _
    have hle := pollAux_polls_le msg (capture_tmux_output (runs 0))
      (fun i => capture_tmux_output (runs (i + 1))) num_checks 0
    have h5 : check_interval = 5 := rfl
    have hmw : max_wait = 100 := rfl
    have hn : num_checks = 20 := rfl
    simp only []
    rw [h5, hmw, hn]
    rw [hn] at hle
    omega
  · intro hfail
    simp only [] at hfail
    have hiff := pollAux_success_iff msg (capture_tmux_output (runs 0))
      (fun i => capture_tmux_output (runs (i + 1))) hnl num_checks 0
    have hnone : ∀ j, 0 ≤ j → j < 0 + num_checks →
        deliveredCond msg (capture_tmux_output (runs 0))
          (capture_tmux_output (runs (j + 1))) = false := by
      intro j _ hj
      by_contra hne
      have htrue : deliveredCond msg (capture_tmux_output (runs 0))
          (capture_tmux_output (runs (j + 1))) = true := by
        revert hne; cases deliveredCond msg (capture_tmux_output (runs 0))
          (capture_tmux_output (runs (j + 1))) <;> simp
      have : (pollAux msg (capture_tmux_output (runs 0))
          (fun i => capture_tmux_output (runs (i + 1))) num_checks 0).success = true :=
        hiff.2 ⟨j, Nat.zero_le j, hj, htrue⟩
      rw [hfail] at this
      exact absurd this (by simp)
    have hfull := pollAux_no_match msg (capture_tmux_output (runs 0))
      (fun i => capture_tmux_output (runs (i + 1))) num_checks 0 hnone
    have hd := strategyDelay_le_interval s
    have h5 : check_interval = 5 := rfl
    have hmw : max_wait = 100 := rfl
    have hn : num_checks = 20 := rfl
    rw [hfull]
    simp only []
    rw [h5, hmw, hn]
    rw [h5] at hd
    omega

theorem C7_elapsed_bounds_witness :
    (0 ≤ (send_test_message none (strategyDelay Strategy.single_enter)
        ("OK").toList c7wRuns).response_time
    ∧ ((send_test_message none (strategyDelay Strategy.single_enter)
          ("OK").toList c7wRuns).success = true →
        (send_test_message none (strategyDelay Strategy.single_enter)
          ("OK").toList c7wRuns).response_time ≤
            max_wait + strategyDelay Strategy.single_enter)
    ∧ ((send_test_message none (strategyDelay Strategy.single_enter)
          ("OK").toList c7wRuns).success = false →
        max_wait ≤ (send_test_message none (strategyDelay Strategy.single_enter)
          ("OK").toList c7wRuns).response_time
        ∧ (send_test_message none (strategyDelay Strategy.single_enter)
            ("OK").toList c7wRuns).response_time ≤
              max_wait + check_interval)) :=
  C7_elapsed_bounds Strategy.single_enter ("OK").toList c7wRuns (by decide)

/-! ## Claim C2 -/

/-- C2 (code bug): the overall rate in `generate_stress_report` is guarded
(`0` when no messages were sent), but the per-scenario rate in
`rapid_fire_test` divides by the attempt count unguarded and raises
`ZeroDivisionError` (modelled as `none`) when the count is 0, so not every
report path that computes a success rate is guarded. -/
theorem C2_success_rate_zero_guard :
    rapid_fire_success_rate 0 0 = none
    ∧ overall_success_rate 0 0 = 0
    ∧ (∀ s t : Nat, s ≤ t → 0 ≤ overall_success_rate s t
        ∧ overall_success_rate s t ≤ 100) := by
  refine ⟨by simp [rapid_fire_success_rate], by simp [overall_success_rate], ?_⟩
  intro s t hst
  unfold overall_success_rate
  by_cases ht : 0 < t
  · rw [if_pos ht]
    constructor
    · positivity
    · rw [div_mul_eq_mul_div, div_le_iff₀ (by positivity : (0 : ℚ) < (t : ℚ))]
      have : (s : ℚ) ≤ (t : ℚ) := by exact_mod_cast hst
      nlinarith
  · rw [if_neg ht]
    norm_num

theorem C2_success_rate_zero_guard_witness :
    (rapid_fire_success_rate 0 0 = none
    ∧ overall_success_rate 0 0 = 0
    ∧ (∀ s t : Nat, s ≤ t → 0 ≤ overall_success_rate s t
        ∧ overall_success_rate s t ≤ 100)) :=
  C2_success_rate_zero_guard

/-! ## Claim C4 -/

theorem pyFoldMax_spec {α : Type} (key : α → ℚ) :
    ∀ (xs : List α) (acc : α),
      (xs.foldl (fun a y => if key a < key y then y else a) acc = acc
        ∨ xs.foldl (fun a y => if key a < key y then y else a) acc ∈ xs)
      ∧ key acc ≤ key (xs.foldl (fun a y => if key a < key y then y else a) acc)
      ∧ ∀ z ∈ xs, key z ≤ key (xs.foldl (fun a y => if key a < key y then y else a) acc) := by
  intro xs
  induction xs with
  | nil => intro acc; exact ⟨Or.inl rfl, le_refl _, by simp⟩
  | cons y ys ih =>
    intro acc
    simp only [List.foldl_cons]
    obtain ⟨hmem, hacc, hall⟩ := ih (if key acc < key y then y else acc)
    have hstep : key acc ≤ key (if key acc < key y then y else acc) := by
      split
      · exact le_of_lt (by assumption)
      · exact le_refl _
    have hy : key y ≤ key (if key acc < key y then y else acc) := by
      split
      · exact le_refl _
      · exact le_of_not_lt (by assumption)
    refine ⟨?_, le_trans hstep hacc, ?_⟩
    · rcases hmem with h | h
      · rw [h]
        split
        · exact Or.inr (List.mem_cons_self y ys)
        · exact Or.inl rfl
      · exact Or.inr (List.mem_cons_of_mem y h)
    · intro z hz
      rcases List.mem_cons.mp hz with rfl | hz'
      · exact le_trans hy hacc
      · exact hall z hz'

theorem pyFoldMin_spec {α : Type} (key : α → ℚ) :
    ∀ (xs : List α) (acc : α),
      (xs.foldl (fun a y => if key y < key a then y else a) acc = acc
        ∨ xs.foldl (fun a y => if key y < key a then y else a) acc ∈ xs)
      ∧ key (xs.foldl (fun a y => if key y < key a then y else a) acc) ≤ key acc
      ∧ ∀ z ∈ xs, key (xs.foldl (fun a y => if key y < key a then y else a) acc) ≤ key z := by
  intro xs
  induction xs with
  | nil => intro acc; exact ⟨Or.inl rfl, le_refl _, by simp⟩
  | cons y ys ih =>
    intro acc
    simp only [List.foldl_cons]
    obtain ⟨hmem, hacc, hall⟩ := ih (if key y < key acc then y else acc)
    have hstep : key (if key y < key acc then y else acc) ≤ key acc := by
      split
      · exact le_of_lt (by assumption)
      · exact le_refl _
    have hy : key (if key y < key acc then y else acc) ≤ key y := by
      split
      · exact le_refl _
      · exact le_of_not_lt (by assumption)
    refine ⟨?_, le_trans hacc hstep, ?_⟩
    · rcases hmem with h | h
      · rw [h]
        split
        · exact Or.inr (List.mem_cons_self y ys)
        · exact Or.inl rfl
      · exact Or.inr (List.mem_cons_of_mem y h)
    · intro z hz
      rcases List.mem_cons.mp hz with rfl | hz'
      · exact le_trans hacc hy
      · exact hall z hz'

/-- C4 counterexample: on two results with equal success rate where the one
listed second has the lower average latency, `generate_stress_report` picks
the FIRST-listed (higher-latency) one as best: Python `max` with a
`success_rate` key keeps the earliest maximal element and never consults
`avgLatency`, so the claimed tie-break by lower `avgLatency` fails. -/
theorem C4_rank_tiebreak_counterexample :
    tieHigherLatency.success_rate = tieLowerLatency.success_rate
    ∧ tieLowerLatency.avg_response_time < tieHigherLatency.avg_response_time
    ∧ best_test [tieHigherLatency, tieLowerLatency] = some tieHigherLatency := by
  refine ⟨rfl, by norm_num [tieHigherLatency, tieLowerLatency], ?_⟩
  simp [best_test, pyMaxBy, tieHigherLatency, tieLowerLatency]

/-- C4 amended: best and worst are picked by `successRate` alone — best is an
entry with maximal rate, worst one with minimal rate, and between two entries
with equal rate the earlier-listed wins for both (average latency is never
consulted); with no results both are `None` without crashing. -/
theorem C4_rank_by_success_rate (rs : List StressTestResult) :
    (rs = [] → best_test rs = none ∧ worst_test rs = none)
    ∧ (∀ x, best_test rs = some x →
        x ∈ rs ∧ ∀ y ∈ rs, y.success_rate ≤ x.success_rate)
    ∧ (∀ x, worst_test rs = some x →
        x ∈ rs ∧ ∀ y ∈ rs, x.success_rate ≤ y.success_rate)
    ∧ (∀ a b : StressTestResult, a.success_rate = b.success_rate →
        best_test [a, b] = some a ∧ worst_test [a, b] = some a) := by
  refine ⟨?_, ?_, ?_, ?_⟩
  · rintro rfl; exact ⟨rfl, rfl⟩
  · intro x hx
    cases rs with
    | nil => simp [best_test, pyMaxBy] at hx
    | cons r rest =>
      simp only [best_test, pyMaxBy, Option.some_inj] at hx
      obtain ⟨hmem, hr, hall⟩ := pyFoldMax_spec (fun t => t.success_rate) rest r
      subst hx
      constructor
      · rcases hmem with h | h
        · rw [h]; exact List.mem_cons_self r rest
        · exact List.mem_cons_of_mem r h
      · intro y hy
        rcases List.mem_cons.mp hy with rfl | hy'
        · exact hr
        · exact hall y hy'
  · intro x hx
    cases rs with
    | nil => simp [worst_test, pyMinBy] at hx
    | cons r rest =>
      simp only [worst_test, pyMinBy, Option.some_inj] at hx
      obtain ⟨hmem, hr, hall⟩ := pyFoldMin_spec (fun t => t.success_rate) rest r
      subst hx
      constructor
      · rcases hmem with h | h
        · rw [h]; exact List.mem_cons_self r rest
        · exact List.mem_cons_of_mem r h
      · intro y hy
        rcases List.mem_cons.mp hy with rfl | hy'
        · exact hr
        · exact hall y hy'
  · intro a b hab
    constructor
    · simp [best_test, pyMaxBy, hab]
    · simp [worst_test, pyMinBy, hab]

theorem C4_rank_by_success_rate_witness :
    (([tieLowerLatency] = [] →
        best_test [tieLowerLatency] = none ∧ worst_test [tieLowerLatency] = none)
    ∧ (∀ x, best_test [tieLowerLatency] = some x →
        x ∈ [tieLowerLatency] ∧
          ∀ y ∈ [tieLowerLatency], y.success_rate ≤ x.success_rate)
    ∧ (∀ x, worst_test [tieLowerLatency] = some x →
        x ∈ [tieLowerLatency] ∧
          ∀ y ∈ [tieLowerLatency], x.success_rate ≤ y.success_rate)
    ∧ (∀ a b : StressTestResult, a.success_rate = b.success_rate →
        best_test [a, b] = some a ∧ worst_test [a, b] = some a)) :=
  C4_rank_by_success_rate [tieLowerLatency]

/-! ## Claim C5 -/

/-- C5 counterexample: on a `tmux list-sessions` output with no line
containing "claude", `main` takes the no-session path — the claimed
harness-level initialization failure — and the process still exits 0 (both
harness `main` functions just print and `return`), contradicting the claim
that exactly this case exits non-zero. -/
theorem C5_exit_counterexample :
    main_outcome ("work: 1 windows").toList = MainOutcome.no_sessions
    ∧ main_exit_code ("work: 1 windows").toList = 0 := by decide

/-- C5 amended: the harness exits 0 on every input: when no candidate session
is found it prints a diagnostic and returns normally (exit code 0), and a
completed run also exits 0; no exit path distinguishes initialization
failure. -/
theorem C5_exit_always_zero (stdout : Txt) :
    main_exit_code stdout = 0
    ∧ (main_outcome stdout = MainOutcome.no_sessions ↔
        claude_sessions stdout = []) := by
  constructor
  · unfold main_exit_code
    cases main_outcome stdout <;> rfl
  · unfold main_outcome
    cases h : claude_sessions stdout <;> simp

/-! ## Claim C8 -/

/-- C8 counterexample: in `rapid_fire_test` each attempt has the same
idealized per-attempt elapsed time (strategy sleeps plus the 1 s
verification wait = 1.0 s for `single_enter`), yet the reported
`avg_response_time` for a 2-message batch is 1.1 s — the batch wall-clock
time, including the 0.1 s inter-send pauses, divided by the attempt count —
not the 1.0 s arithmetic mean of the per-attempt elapsed times. -/
theorem C8_avg_latency_counterexample :
    rapid_fire_avg_response_time 2 StressStrategy.single_enter = some 11
    ∧ statistics_mean (List.replicate 2
        ((send_message_duration StressStrategy.single_enter : ℚ))) = some 10
    ∧ (11 : ℚ) ≠ 10 := by
  refine ⟨?_, ?_, by norm_num⟩
  · simp only [rapid_fire_avg_response_time, rapid_fire_total_time,
      send_message_duration, stressStrategyDelay]
    norm_num
  · simp only [statistics_mean, send_message_duration, stressStrategyDelay]
    norm_num

/-- C8 amended: `test_send_enter` computes `avgLatency` as the arithmetic
mean of the per-attempt elapsed times, but the stress tester's
`avg_response_time` is the batch wall-clock time divided by the message
count: for any non-empty rapid-fire batch it equals the (common)
per-attempt elapsed time plus the 0.1 s inter-send pause, hence is never
the arithmetic mean of the per-attempt elapsed times. -/
theorem C8_avg_latency_includes_pause (n : Nat) (hn : 0 < n) (s : StressStrategy) :
    rapid_fire_avg_response_time n s = some ((send_message_duration s : ℚ) + 1)
    ∧ statistics_mean (List.replicate n ((send_message_duration s : ℚ))) =
        some ((send_message_duration s : ℚ))
    ∧ ((send_message_duration s : ℚ) + 1) ≠ ((send_message_duration s : ℚ)) := by
  have hn0 : n ≠ 0 := Nat.pos_iff_ne_zero.mp hn
  have hq0 : (n : ℚ) ≠ 0 := Nat.cast_ne_zero.mpr hn0
  refine ⟨?_, ?_, by intro h; nlinarith [h]⟩
  · simp only [rapid_fire_avg_response_time, if_neg hn0, rapid_fire_total_time]
    congr 1
    push_cast
    field_simp
  · simp only [statistics_mean, List.sum_replicate, List.length_replicate,
      nsmul_eq_mul]
    rw [if_neg (by simp [hn0])]
    congr 1
    field_simp

theorem C8_avg_latency_includes_pause_witness :
    (rapid_fire_avg_response_time 3 StressStrategy.double_enter =
      some ((send_message_duration StressStrategy.double_enter : ℚ) + 1)
    ∧ statistics_mean (List.replicate 3
        ((send_message_duration StressStrategy.double_enter : ℚ))) =
        some ((send_message_duration StressStrategy.double_enter : ℚ))
    ∧ ((send_message_duration StressStrategy.double_enter : ℚ) + 1) ≠
        ((send_message_duration StressStrategy.double_enter : ℚ))) :=
  C8_avg_latency_includes_pause 3 (by decide) StressStrategy.double_enter

/-! ## Claim C9 -/

theorem collectErrors_length (tag : Txt) :
    ∀ (i : Nat) (outs : List MsgOutcome),
      (collectErrors tag i outs).length =
        (outs.filter MsgOutcome.isFailure).length := by
  intro i outs
  induction outs generalizing i with
  | nil => rfl
  | cons o rest ih =>
    cases o <;> simp [collectErrors, MsgOutcome.isFailure, ih]

/-- C9 counterexample: a long-message scenario in which 6 of the attempts
fail records all 6 error descriptions — `long_message_test` stores
`errors=errors` with no cap — so the recorded sample-errors sequence grows
past the cap of 5 that `rapid_fire_test` uses. -/
theorem C9_sample_errors_counterexample :
    5 < (long_message_errors (List.replicate 6 MsgOutcome.notReceived)).length := by
  rw [long_message_errors, collectErrors_length]
  decide

/-- C9 amended: only the rapid-fire scenario bounds its recorded errors —
it stores the first 5 error descriptions in insertion order (a prefix of the
full error sequence, never more than 5) — while the long-message and
busy-target scenarios record one description per failed attempt with no cap,
growing with the number of failures. -/
theorem C9_sample_errors_bounds (outs : List MsgOutcome) :
    (rapid_fire_errors outs).length ≤ 5
    ∧ (∃ rest, collectErrors (("Message ").toList) 0 outs =
        rapid_fire_errors outs ++ rest)
    ∧ (long_message_errors outs).length =
        (outs.filter MsgOutcome.isFailure).length
    ∧ (busy_claude_errors outs).length =
        (outs.filter MsgOutcome.isFailure).length := by
  refine ⟨List.length_take_le 5 _, ?_, ?_, ?_⟩
  · exact ⟨(collectErrors (("Message ").toList) 0 outs).drop 5,
      (List.take_append_drop 5 _).symm⟩
  · exact collectErrors_length _ 0 outs
  · exact collectErrors_length _ 0 outs

/-! ## Claim C6 -/

theorem chunks_flatten_of_le (size : Nat) (hs : 0 < size) :
    ∀ (n : Nat) (msg : Txt), msg.length ≤ n →
      (chunks size msg).flatten = msg := by
  intro n
  induction n with
  | zero =>
    intro msg h
    have hm : msg = [] := by
      cases msg with
      | nil => rfl
      | cons c cs => simp at h
    subst hm
    rw [chunks]
    simp
  | succ n ih =>
    intro msg h
    by_cases hm : msg = []
    · subst hm; rw [chunks]; simp
    · rw [chunks, dif_neg hm, dif_neg (by omega : ¬ size = 0)]
      simp only [List.flatten_cons]
      rw [ih (msg.drop size) (by
        have h1 : 0 < msg.length := List.length_pos.mpr hm
        simp only [List.length_drop]
        omega)]
      exact List.take_append_drop size msg

theorem chunks_piece_le (size : Nat) (hs : 0 < size) :
    ∀ (n : Nat) (msg : Txt), msg.length ≤ n →
      ∀ c ∈ chunks size msg, c.length ≤ size := by
  intro n
  induction n with
  | zero =>
    intro msg h c hc
    have hm : msg = [] := by
      cases msg with
      | nil => rfl
      | cons x xs => simp at h
    subst hm
    rw [chunks] at hc
    simp at hc
  | succ n ih =>
    intro msg h c hc
    by_cases hm : msg = []
    · subst hm; rw [chunks] at hc; simp at hc
    · rw [chunks, dif_neg hm, dif_neg (by omega : ¬ size = 0)] at hc
      rcases List.mem_cons.mp hc with rfl | hc'
      · rw [List.length_take]
        omega
      · exact ih (msg.drop size) (by
          have h1 : 0 < msg.length := List.length_pos.mpr hm
          simp only [List.length_drop]
          omega) c hc'

theorem chunkBody_no_enter (cs : List Txt) :
    ∀ k ∈ List.flatten (cs.map
      (fun c => [DriverCall.sendKeys c, DriverCall.sleepFor 2])),
      k ≠ DriverCall.sendEnter := by
  intro k hk
  simp only [List.mem_flatten, List.mem_map] at hk
  obtain ⟨l, ⟨c, _, rfl⟩, hkl⟩ := hk
  simp only [List.mem_cons, List.not_mem_nil, or_false] at hkl
  rcases hkl with rfl | rfl <;> simp

theorem chunkBody_sent_texts (cs : List Txt) :
    (List.flatten (cs.map
      (fun c => [DriverCall.sendKeys c, DriverCall.sleepFor 2]))).filterMap
      (fun k => match k with
        | DriverCall.sendKeys c => some c
        | _ => none) = cs := by
  induction cs with
  | nil => rfl
  | cons c rest ih => simp [List.filterMap_cons, ih]

/-- C6: for every payload and positive chunk size, `strategy_chunked_sending`
splits the payload into consecutive pieces of at most the chunk size whose
in-order concatenation is the original payload, issues exactly the pieces as
separate `send-keys` text calls (each followed by the 0.2 s pause), and sends
exactly one final Enter, as the last call after the last chunk. -/
theorem C6_chunked_splits_and_submits_once (size : Nat) (msg : Txt)
    (hs : 0 < size) :
    (chunks size msg).flatten = msg
    ∧ (∀ c ∈ chunks size msg, c.length ≤ size)
    ∧ ((chunkedTrace size msg).filterMap
        (fun k => match k with
          | DriverCall.sendKeys c => some c
          | _ => none) = chunks size msg)
    ∧ (∀ k ∈ List.flatten ((chunks size msg).map
        (fun c => [DriverCall.sendKeys c, DriverCall.sleepFor 2])),
        k ≠ DriverCall.sendEnter)
    ∧ (chunkedTrace size msg).getLast? = some DriverCall.sendEnter := by
  refine ⟨chunks_flatten_of_le size hs msg.length msg (le_refl _),
    chunks_piece_le size hs msg.length msg (le_refl _), ?_, chunkBody_no_enter _, ?_⟩
  · rw [chunkedTrace, List.filterMap_append, chunkBody_sent_texts]
    simp [List.filterMap]
  · rw [chunkedTrace]
    exact List.getLast?_concat _

theorem C6_chunked_splits_and_submits_once_witness :
    ((chunks 2 (("abcde").toList)).flatten = ("abcde").toList
    ∧ (∀ c ∈ chunks 2 (("abcde").toList), c.length ≤ 2)
    ∧ ((chunkedTrace 2 (("abcde").toList)).filterMap
        (fun k => match k with
          | DriverCall.sendKeys c => some c
          | _ => none) = chunks 2 (("abcde").toList))
    ∧ (∀ k ∈ List.flatten ((chunks 2 (("abcde").toList)).map
        (fun c => [DriverCall.sendKeys c, DriverCall.sleepFor 2])),
        k ≠ DriverCall.sendEnter)
    ∧ (chunkedTrace 2 (("abcde").toList)).getLast? =
        some DriverCall.sendEnter) :=
  C6_chunked_splits_and_submits_once 2 (("abcde").toList) (by decide)

/-! ## Claim C10 -/

/-- C10: every large-message strategy routine returns `success = True`
whenever its driver calls raise no exception, whatever the pane capture
contains: the internally computed verification flag (here exposed as
`computedVerification`) never influences the returned value, so a pane
capture that fails the verification check — e.g. an empty pane after a
silently dropped payload — is still reported as a success.  Only an
exception makes a routine return `False`. -/
theorem C10_large_strategies_ignore_verification (pane msg : Txt)
    (size dRaise : Nat) (e : Txt) :
    (strategy_single_send_keys none dRaise pane).returnedSuccess = true
    ∧ (strategy_chunked_sending none dRaise msg size pane).returnedSuccess = true
    ∧ (strategy_paste_buffer none dRaise pane).returnedSuccess = true
    ∧ (strategy_heredoc_approach none dRaise pane).returnedSuccess = true
    ∧ (strategy_single_send_keys none dRaise pane).computedVerification =
        some (verificationFlag pane)
    ∧ (strategy_single_send_keys none dRaise ([] : Txt)).computedVerification =
        some false
    ∧ (strategy_single_send_keys none dRaise ([] : Txt)).returnedSuccess = true
    ∧ (strategy_single_send_keys (some e) dRaise pane).returnedSuccess = false
    ∧ (strategy_chunked_sending (some e) dRaise msg size pane).returnedSuccess = false
    ∧ (strategy_paste_buffer (some e) dRaise pane).returnedSuccess = false
    ∧ (strategy_heredoc_approach (some e) dRaise pane).returnedSuccess = false := by
  refine ⟨rfl, rfl, rfl, rfl, rfl, ?_, rfl, rfl, rfl, rfl, rfl⟩
  rfl

end TmuxHarness
